import Mathlib

/-!
Verification of the `e170-terrain-radar` repository: a shallow embedding of
the `geo` dataset format/codec layer and the `render` GPU tile-cache layer,
with theorems checking the natural-language specification against the code.

Machine integers are modelled as `ℕ` (with explicit `% 2 ^ w` where the Rust
code can overflow); byte strings are `List ℕ`; fallible operations return
`Option`/`Except`.  The two opaque codecs (the `hcomp` elevation codec and
the lossless WebP image codec) are modelled as abstract encode/decode pairs,
exactly as the spec treats them ("opaque byte frames").
-/

namespace TerrainRadar

/-! ## Grid index — `src/geo/src/lib.rs`, `map_lat_lon_to_index` /
`map_index_to_lat_lon`. -/

/-- `map_lat_lon_to_index` from `src/geo/src/lib.rs` (lines 183–190):
`lat` and `lon` are shifted to non-negative and combined as
`lat * 360 + lon`.  The `i16 → usize` casts are total on the valid domain. -/
def map_lat_lon_to_index (lat lon : ℤ) : ℕ :=
  (lat + 90).toNat * 360 + (lon + 180).toNat

/-- `map_index_to_lat_lon` from `src/geo/src/lib.rs` (lines 192–198). -/
def map_index_to_lat_lon (index : ℕ) : ℤ × ℤ :=
  ((index / 360 : ℕ) - 90, (index % 360 : ℕ) - 180)

/-! ## Little-endian byte primitives.

The on-disk format stores `u16`/`u64` fields little-endian; the builder
serializes them with `to_le_bytes` / a raw byte view of a `u64` array, and
the reader parses them with `from_le_bytes`. -/

/-- Little-endian bytes of a `u16` (`u16::to_le_bytes`). -/
def u16leBytes (x : ℕ) : List ℕ := [x % 256, x / 256 % 256]

/-- Little-endian bytes of a `u32` (`u32::to_le_bytes`). -/
def u32leBytes (x : ℕ) : List ℕ :=
  [x % 256, x / 2 ^ 8 % 256, x / 2 ^ 16 % 256, x / 2 ^ 24 % 256]

/-- Little-endian bytes of a `u64` (the raw byte view of a `u64` used by
`DatasetBuilder::flush` / `write_to_file`). -/
def u64leBytes (x : ℕ) : List ℕ :=
  [x % 256, x / 2 ^ 8 % 256, x / 2 ^ 16 % 256, x / 2 ^ 24 % 256,
   x / 2 ^ 32 % 256, x / 2 ^ 40 % 256, x / 2 ^ 48 % 256, x / 2 ^ 56 % 256]

/-- Read a little-endian `u16` at byte offset `off` (`u16::from_le_bytes` on
`buffer[off..off+2]`). -/
def readU16le (b : List ℕ) (off : ℕ) : ℕ :=
  b.getD off 0 % 256 + 256 * (b.getD (off + 1) 0 % 256)

/-- Read a little-endian `u64` at byte offset `off` (`u64::from_le_bytes` on
an 8-byte chunk). -/
def readU64le (b : List ℕ) (off : ℕ) : ℕ :=
  b.getD off 0 % 256 + 2 ^ 8 * (b.getD (off + 1) 0 % 256) +
  2 ^ 16 * (b.getD (off + 2) 0 % 256) + 2 ^ 24 * (b.getD (off + 3) 0 % 256) +
  2 ^ 32 * (b.getD (off + 4) 0 % 256) + 2 ^ 40 * (b.getD (off + 5) 0 % 256) +
  2 ^ 48 * (b.getD (off + 6) 0 % 256) + 2 ^ 56 * (b.getD (off + 7) 0 % 256)

theorem readU64le_u64leBytes (x : ℕ) (rest : List ℕ) :
    readU64le (u64leBytes x ++ rest) 0 = x % 2 ^ 64 := by
  simp only [readU64le, u64leBytes, List.cons_append, List.getD_cons_zero,
    List.getD_cons_succ]
  omega

theorem u64leBytes_length (x : ℕ) : (u64leBytes x).length = 8 := rfl

/-! ## Dataset format (version 8) — `src/geo/src/lib.rs`, `dataset.rs`,
`builder.rs`. -/

/-- `FORMAT_VERSION` from `src/geo/src/lib.rs`. -/
def FORMAT_VERSION : ℕ := 8

/-- `Dataset::MAGIC` from `src/geo/src/dataset.rs`. -/
def MAGIC : List ℕ := [115, 117, 115, 115, 121]

/-- `TileMetadata` from `src/geo/src/lib.rs`. -/
structure TileMetadata where
  version : ℕ
  resolution : ℕ
  height_resolution : ℕ
  deriving DecidableEq, Repr

/-- `LoadError` from `src/geo/src/lib.rs` (the `Io` payload is dropped). -/
inductive LoadError where
  | InvalidFileSize
  | InvalidMagic
  | UnsupportedFormatVersion
  | Io
  deriving DecidableEq, Repr

/-- The fixed prefix of a dataset file: 32-byte header plus the
64800-entry `u64` offset table. -/
def PREFIX_SIZE : ℕ := 32 + 360 * 180 * 8

/-- The on-disk offset table: 64800 little-endian `u64`s starting at byte 32
(`Dataset::load`, `src/geo/src/dataset.rs` lines 44–47: `buffer[32..]` in
8-byte chunks). -/
def parseTileMap (b : List ℕ) : List ℕ :=
  (List.range 64800).map fun i => readU64le b (32 + 8 * i)

/-- In-memory `Dataset` (`src/geo/src/dataset.rs`): header metadata, the
parsed offset table, and the mmap of the file from byte 518432 on. -/
structure Dataset where
  metadata : TileMetadata
  tile_map : List ℕ
  data : List ℕ

/-- `Dataset::load` from `src/geo/src/dataset.rs` (lines 18–55), modelled on
the byte content of the file.  `read_exact` of the 518432-byte prefix fails
(as `InvalidFileSize`) exactly when the file is shorter; the directory check
and I/O errors of the real code have no byte-level counterpart.  All header
reads fall inside the prefix, so they are taken directly from the file. -/
def Dataset.load (file : List ℕ) : Except LoadError Dataset :=
  if file.length < PREFIX_SIZE then .error .InvalidFileSize
  else if file.take 5 ≠ MAGIC then .error .InvalidMagic
  else if readU16le file 5 ≠ FORMAT_VERSION then .error .UnsupportedFormatVersion
  else .ok
    { metadata :=
        { version := FORMAT_VERSION
          resolution := readU16le file 7
          height_resolution := readU16le file 9 }
      tile_map := parseTileMap file
      data := file.drop PREFIX_SIZE }

/-- `Dataset::tile_count` from `src/geo/src/dataset.rs` (line 64). -/
def Dataset.tile_count (d : Dataset) : ℕ := d.tile_map.countP (fun x => x ≠ 0)

/-! ## Opaque codecs.

The spec (§1) treats `hcomp` and lossless WebP as opaque self-delimiting
byte frames with operations `encode_elevation` / `decode_elevation` /
`encode_lossless_image` / `decode_lossless_image`.  A decoder consumes a
prefix of its input and reports the consumed length (`hcomp::decode` returns
`(heightmap, len)`; `decompress_u8_webp` recovers the frame length from the
RIFF container and returns the remaining slice). -/

/-- An abstract elevation codec (`hcomp`): `enc res data` is the frame bytes,
`dec res bytes` recovers the `res × res` payload and the consumed length. -/
structure ElevCodec where
  enc : ℕ → List ℕ → List ℕ
  dec : ℕ → List ℕ → Option (List ℕ × ℕ)

/-- An abstract lossless image codec (WebP): same interface as the elevation
codec, encoding the pixel bytes of a `compress_u8_webp` picture. -/
structure ImgCodec where
  enc : ℕ → List ℕ → List ℕ
  dec : ℕ → List ℕ → Option (List ℕ × ℕ)

/-- The encode/decode pair is inverse: decoding any byte string that starts
with an encoded frame recovers the payload and consumes exactly the frame. -/
def ElevCodec.RoundTrip (c : ElevCodec) : Prop :=
  ∀ res data rest, c.dec res (c.enc res data ++ rest) = some (data, (c.enc res data).length)

/-- The image codec's inverse property (losslessness of the WebP frames). -/
def ImgCodec.RoundTrip (c : ImgCodec) : Prop :=
  ∀ res data rest, c.dec res (c.enc res data ++ rest) = some (data, (c.enc res data).length)

/-- A concrete length-prefixed codec satisfying `RoundTrip`, used to
instantiate counterexamples. -/
def lpEnc (d : List ℕ) : List ℕ := d.length :: d

/-- Decoder of the length-prefixed codec. -/
def lpDec (b : List ℕ) : Option (List ℕ × ℕ) :=
  match b with
  | [] => none
  | n :: rest => if n ≤ rest.length then some (rest.take n, n + 1) else none

/-- Length-prefixed instantiation of the elevation codec. -/
def lpElevCodec : ElevCodec := ⟨fun _ => lpEnc, fun _ => lpDec⟩

/-- Length-prefixed instantiation of the image codec. -/
def lpImgCodec : ImgCodec := ⟨fun _ => lpEnc, fun _ => lpDec⟩

theorem lpDec_lpEnc (d rest : List ℕ) :
    lpDec (lpEnc d ++ rest) = some (d, (lpEnc d).length) := by
  simp [lpDec, lpEnc, List.take_append_of_le_length, List.take_length]

theorem lpElevCodec_roundTrip : lpElevCodec.RoundTrip := by
  intro res data rest; exact lpDec_lpEnc data rest

theorem lpImgCodec_roundTrip : lpImgCodec.RoundTrip := by
  intro res data rest; exact lpDec_lpEnc data rest

/-! ## DatasetBuilder — `src/geo/src/builder.rs`. -/

/-- The elevation quantisation in `DatasetBuilder::add_tile` (lines 82–91):
`(x as f32 / height_resolution as f32).round() as u16`.  The `f32` division
and round-half-away-from-zero are modelled exactly on non-negative rationals
as `⌊(2x + h) / (2h)⌋`; the saturating `as u16` cast is the `min _ 65535`. -/
def quantise (hres x : ℕ) : ℕ := min ((2 * x + hres) / (2 * hres)) 65535

/-- The bytes of one tile record as written by `add_tile` (lines 110–117):
elevation frame, then water frame, then hillshade frame. -/
def recordBytes (ce : ElevCodec) (ci : ImgCodec) (m : TileMetadata)
    (data water hillshade : List ℕ) : List ℕ :=
  ce.enc m.resolution (data.map (quantise m.height_resolution)) ++
    (ci.enc m.resolution water ++ ci.enc m.resolution hillshade)

/-- The 32-byte header written by `DatasetBuilder::write_to_file`
(lines 138–149): magic, version, resolution, height resolution, then the
zero-initialized remainder of the 32-byte array. -/
def headerBytes (m : TileMetadata) : List ℕ :=
  MAGIC ++ u16leBytes m.version ++ u16leBytes m.resolution ++
    u16leBytes m.height_resolution ++ List.replicate 21 0

/-- The serialized offset table: the raw little-endian byte view of the
`Vec<u64>` (`write_to_file` line 146, `flush` line 128). -/
def tileMapBytes (tm : List ℕ) : List ℕ := tm.flatMap u64leBytes

/-- The builder's state: its metadata, the in-memory offset table (`Locked::
tile_map`) and the byte content of the file it holds open. -/
structure BuilderState where
  metadata : TileMetadata
  tile_map : List ℕ
  file : List ℕ

/-- `DatasetBuilder::new` (lines 45–61): a zeroed offset table and a file
holding the header followed by the serialized table. -/
def DatasetBuilder.new (m : TileMetadata) : BuilderState :=
  { metadata := m
    tile_map := List.replicate 64800 0
    file := headerBytes m ++ tileMapBytes (List.replicate 64800 0) }

/-- `DatasetBuilder::add_tile` (lines 69–120), success path: under the
exclusive lock, the current end-of-file offset is recorded in the in-memory
table at `map_lat_lon_to_index(lat, lon)` and the three frames are appended.
The encoding happens outside the lock and is pure. -/
def DatasetBuilder.add_tile (ce : ElevCodec) (ci : ImgCodec) (s : BuilderState)
    (lat lon : ℤ) (data water hillshade : List ℕ) : BuilderState :=
  { s with
    tile_map := s.tile_map.set (map_lat_lon_to_index lat lon) s.file.length
    file := s.file ++ recordBytes ce ci s.metadata data water hillshade }

/-- `add_tile` when one of the `write_all` calls fails after `k` bytes of the
record reached the file: the in-memory table was already updated (line 114
precedes the writes), and only a prefix of the record was appended. -/
def DatasetBuilder.add_tile_partial (ce : ElevCodec) (ci : ImgCodec)
    (s : BuilderState) (lat lon : ℤ) (data water hillshade : List ℕ)
    (k : ℕ) : BuilderState :=
  { s with
    tile_map := s.tile_map.set (map_lat_lon_to_index lat lon) s.file.length
    file := s.file ++ (recordBytes ce ci s.metadata data water hillshade).take k }

/-- `DatasetBuilder::flush` (lines 122–134): seek to byte 32 and overwrite
the on-disk offset table with the serialized in-memory table. -/
def DatasetBuilder.flush (s : BuilderState) : BuilderState :=
  { s with
    file := s.file.take 32 ++ tileMapBytes s.tile_map ++ s.file.drop PREFIX_SIZE }

/-- `Dataset::get_full_tile` (`src/geo/src/dataset.rs` lines 79–123): look
up the offset, `None` if zero; otherwise decode the elevation frame at
`offset - 518432` into the mmap, multiply each sample by
`height_resolution` (a `u16` multiplication, hence `% 2 ^ 16`), then decode
the water and hillshade frames from the remaining bytes. -/
def Dataset.get_full_tile (ce : ElevCodec) (ci : ImgCodec) (d : Dataset)
    (lat lon : ℤ) : Option (Except Unit (List ℕ × List ℕ × List ℕ)) :=
  let offset := d.tile_map.getD (map_lat_lon_to_index lat lon) 0
  if offset = 0 then none
  else
    let frame := d.data.drop (offset - PREFIX_SIZE)
    match ce.dec d.metadata.resolution frame with
    | none => some (.error ())
    | some (data, len) =>
      match ci.dec d.metadata.resolution (frame.drop len) with
      | none => some (.error ())
      | some (water, len2) =>
        match ci.dec d.metadata.resolution ((frame.drop len).drop len2) with
        | none => some (.error ())
        | some (hillshade, _) =>
          some (.ok
            (data.map (fun x => x * d.metadata.height_resolution % 2 ^ 16),
             water, hillshade))

theorem headerBytes_length (m : TileMetadata) : (headerBytes m).length = 32 := by
  simp [headerBytes, MAGIC, u16leBytes]

theorem tileMapBytes_length (tm : List ℕ) :
    (tileMapBytes tm).length = 8 * tm.length := by
  induction tm with
  | nil => rfl
  | cons t ts ih =>
    simp [tileMapBytes, List.flatMap_cons, u64leBytes_length] at ih ⊢; omega

/-! ## Claim theorems: grid index (C5). -/

/-- C5: the grid index is a bijection on the valid domain.  For every
`lat ∈ [−90, 90)` and `lon ∈ [−180, 180)`, `map_lat_lon_to_index` equals
`(lat+90)·360 + (lon+180)` and `map_index_to_lat_lon` inverts it; conversely
for every index in `[0, 64800)` the composition the other way is the
identity. -/
theorem grid_index_bijection :
    (∀ lat lon : ℤ, -90 ≤ lat → lat < 90 → -180 ≤ lon → lon < 180 →
      (map_lat_lon_to_index lat lon : ℤ) = (lat + 90) * 360 + (lon + 180) ∧
      map_index_to_lat_lon (map_lat_lon_to_index lat lon) = (lat, lon)) ∧
    (∀ index : ℕ, index < 64800 →
      map_lat_lon_to_index (map_index_to_lat_lon index).1
        (map_index_to_lat_lon index).2 = index) := by
  constructor
  · intro lat lon h1 h2 h3 h4
    unfold map_lat_lon_to_index map_index_to_lat_lon
    refine ⟨by push_cast; omega, ?_⟩
    rw [Prod.mk.injEq]
    constructor <;> push_cast <;> omega
  · intro index h
    unfold map_lat_lon_to_index map_index_to_lat_lon
    omega

/-- Witness for C5 at the concrete cell `(12, -77)` and index `40000`. -/
theorem grid_index_bijection_witness :
    map_index_to_lat_lon (map_lat_lon_to_index 12 (-77)) = (12, -77) ∧
    map_lat_lon_to_index (map_index_to_lat_lon 40000).1
      (map_index_to_lat_lon 40000).2 = 40000 :=
  ⟨(grid_index_bijection.1 12 (-77) (by decide) (by decide) (by decide)
      (by decide)).2,
   grid_index_bijection.2 40000 (by decide)⟩

/-! ## Claim theorems: `Dataset::load` failure modes (C7). -/

/-- Case analysis of `Dataset::load`, shared by several claims. -/
theorem load_cases :
    ∀ file : List ℕ,
      (file.length < 518432 → Dataset.load file = .error .InvalidFileSize) ∧
      (518432 ≤ file.length → file.take 5 ≠ MAGIC →
        Dataset.load file = .error .InvalidMagic) ∧
      (518432 ≤ file.length → file.take 5 = MAGIC → readU16le file 5 ≠ 8 →
        Dataset.load file = .error .UnsupportedFormatVersion) ∧
      (518432 ≤ file.length → file.take 5 = MAGIC → readU16le file 5 = 8 →
        Dataset.load file = .ok
          { metadata :=
              { version := 8
                resolution := readU16le file 7
                height_resolution := readU16le file 9 }
            tile_map := parseTileMap file
            data := file.drop 518432 }) := by
  intro file
  have hps : PREFIX_SIZE = 518432 := rfl
  refine ⟨fun h => ?_, fun h hm => ?_, fun h hm hv => ?_, fun h hm hv => ?_⟩ <;>
    simp only [Dataset.load, hps, FORMAT_VERSION]
  · rw [if_pos h]
  · rw [if_neg (by omega), if_pos hm]
  · rw [if_neg (by omega), if_neg (by simp [hm]), if_pos hv]
  · rw [if_neg (by omega), if_neg (by simp [hm]), if_neg (by simp [hv])]

/-- C7: `Dataset::load` fails with `InvalidFileSize` when the file is shorter
than the 518432-byte fixed prefix, with `InvalidMagic` when bytes 0..5 differ
from the magic, with `UnsupportedFormatVersion` when the little-endian `u16`
at bytes 5..7 is not 8, and otherwise returns a `Dataset` whose metadata is
taken from the header. -/
theorem dataset_load_failure_modes :
    ∀ file : List ℕ,
      (file.length < 518432 → Dataset.load file = .error .InvalidFileSize) ∧
      (518432 ≤ file.length → file.take 5 ≠ MAGIC →
        Dataset.load file = .error .InvalidMagic) ∧
      (518432 ≤ file.length → file.take 5 = MAGIC → readU16le file 5 ≠ 8 →
        Dataset.load file = .error .UnsupportedFormatVersion) ∧
      (518432 ≤ file.length → file.take 5 = MAGIC → readU16le file 5 = 8 →
        Dataset.load file = .ok
          { metadata :=
              { version := 8
                resolution := readU16le file 7
                height_resolution := readU16le file 9 }
            tile_map := parseTileMap file
            data := file.drop 518432 }) :=
  load_cases

/-- Witness for C7: each branch applied at a concrete file. -/
theorem dataset_load_failure_modes_witness :
    Dataset.load [] = .error .InvalidFileSize ∧
    Dataset.load (List.replicate 518432 0) = .error .InvalidMagic ∧
    Dataset.load (MAGIC ++ [9, 0] ++ List.replicate 518425 0) =
      .error .UnsupportedFormatVersion ∧
    Dataset.load (MAGIC ++ [8, 0] ++ List.replicate 518425 0) =
      .ok
        { metadata :=
            { version := 8
              resolution := readU16le (MAGIC ++ [8, 0] ++ List.replicate 518425 0) 7
              height_resolution :=
                readU16le (MAGIC ++ [8, 0] ++ List.replicate 518425 0) 9 }
          tile_map := parseTileMap (MAGIC ++ [8, 0] ++ List.replicate 518425 0)
          data := (MAGIC ++ [8, 0] ++ List.replicate 518425 0).drop 518432 } := by
  have hlen1 : (518432 : ℕ) ≤ (List.replicate 518432 (0 : ℕ)).length := by
    rw [List.length_replicate]
  have hlen2 : ∀ v : ℕ,
      (518432 : ℕ) ≤ (MAGIC ++ [v, 0] ++ List.replicate 518425 0).length := by
    intro v
    simp only [List.length_append, List.length_replicate, MAGIC,
      List.length_cons, List.length_nil]
    omega
  refine ⟨(dataset_load_failure_modes []).1 (by simp),
    (dataset_load_failure_modes _).2.1 hlen1 ?_,
    (dataset_load_failure_modes _).2.2.1 (hlen2 9) ?_ ?_,
    (dataset_load_failure_modes _).2.2.2 (hlen2 8) ?_ ?_⟩
  · rw [List.take_replicate]; decide
  · rw [List.append_assoc, List.take_append_of_le_length (by simp [MAGIC])]
    simp [MAGIC]
  · decide
  · rw [List.append_assoc, List.take_append_of_le_length (by simp [MAGIC])]
    simp [MAGIC]
  · decide

/-! ## Claim theorems: bytes of a freshly created dataset (C8). -/

theorem tileMapBytes_zeros (n : ℕ) :
    tileMapBytes (List.replicate n 0) = List.replicate (8 * n) 0 := by
  induction n with
  | zero => rfl
  | succ k ih =>
    rw [List.replicate_succ, tileMapBytes, List.flatMap_cons,
      show (8 * (k + 1) : ℕ) = 8 + 8 * k by ring, List.replicate_add]
    exact congrArg _ ih

/-- C8: for metadata with version 8 and 16-bit `resolution`/`height_resolution`,
the file produced by `DatasetBuilder::new` is exactly
`{0x73,0x75,0x73,0x73,0x79,0x08,0x00,R_lo,R_hi,H_lo,H_hi}` followed by 21
zero bytes followed by the 518400 zero bytes of the zeroed offset table. -/
theorem new_dataset_file_bytes :
    ∀ m : TileMetadata, m.version = 8 → m.resolution < 65536 →
      m.height_resolution < 65536 →
      (DatasetBuilder.new m).file =
        [0x73, 0x75, 0x73, 0x73, 0x79, 0x08, 0x00,
         m.resolution % 256, m.resolution / 256,
         m.height_resolution % 256, m.height_resolution / 256] ++
        (List.replicate 21 0 ++ List.replicate 518400 0) := by
  intro m hv hr hh
  have h1 : m.resolution / 256 % 256 = m.resolution / 256 :=
    Nat.mod_eq_of_lt (by omega)
  have h2 : m.height_resolution / 256 % 256 = m.height_resolution / 256 :=
    Nat.mod_eq_of_lt (by omega)
  have hz : tileMapBytes (List.replicate 64800 0) = List.replicate 518400 0 := by
    rw [tileMapBytes_zeros]
  simp only [DatasetBuilder.new, headerBytes, MAGIC, u16leBytes, hv, h1, h2, hz,
    List.cons_append, List.nil_append, List.append_assoc,
    show (8 : ℕ) % 256 = 8 from rfl, show (8 : ℕ) / 256 % 256 = 0 from rfl]

/-- Witness for C8 at metadata `{version 8, R 1200, H 1}`. -/
theorem new_dataset_file_bytes_witness :
    (DatasetBuilder.new ⟨8, 1200, 1⟩).file =
      [0x73, 0x75, 0x73, 0x73, 0x79, 0x08, 0x00,
       1200 % 256, 1200 / 256, 1 % 256, 1 / 256] ++
      (List.replicate 21 0 ++ List.replicate 518400 0) :=
  new_dataset_file_bytes ⟨8, 1200, 1⟩ rfl (by norm_num) (by norm_num)

/-! ## Claim theorems: `compress_u8_webp` picture geometry (C4).

`DatasetBuilder::compress_u8_webp` (`src/geo/src/builder.rs` lines 151–191)
builds a lossless RGBA WebP picture from the raw `u8` raster:
`picture.width = width / 2`, `picture.height = height / 2`, and
`WebPPictureImportRGBA(data, width * 2)` imports the bytes row by row with a
stride of `width * 2` bytes.  `Dataset::decompress_u8_webp` decodes the RGBA
pixel bytes back into a `width * height` buffer with the same stride. -/

/-- The picture dimensions chosen by `compress_u8_webp` (builder.rs lines
168–169). -/
def compress_u8_webp_dims (width height : ℕ) : ℕ × ℕ := (width / 2, height / 2)

/-- One RGBA pixel: the 4 bytes at offset `ofs` of the imported buffer. -/
def rgbaPixel (data : List ℕ) (ofs : ℕ) : List ℕ := (data.drop ofs).take 4

/-- The pixel bytes of an imported RGBA picture: `h` rows of `w` pixels, row
`r` starting at byte `r * stride` (the `WebPPictureImportRGBA` layout). -/
def pictureBytes (data : List ℕ) (stride w h : ℕ) : List ℕ :=
  (List.range h).flatMap fun r =>
    (List.range w).flatMap fun c => rgbaPixel data (r * stride + 4 * c)

/-- The pixel bytes of the picture imported by
`compress_u8_webp(data, width, height)`. -/
def compress_u8_webp_picture (data : List ℕ) (width height : ℕ) : List ℕ :=
  pictureBytes data (width * 2) (width / 2) (height / 2)

theorem pictureBytes_row (data : List ℕ) (ofs : ℕ) :
    ∀ w, ofs + 4 * w ≤ data.length →
      ((List.range w).flatMap fun c => rgbaPixel data (ofs + 4 * c)) =
        (data.drop ofs).take (4 * w) := by
  intro w
  induction w with
  | zero => simp
  | succ k ih =>
    intro hle
    rw [List.range_succ, List.flatMap_append,
      ih (by omega), show (4 * (k + 1) : ℕ) = 4 * k + 4 by ring,
      List.take_add, List.drop_drop]
    simp [rgbaPixel]

theorem pictureBytes_packed (data : List ℕ) (w : ℕ) :
    ∀ h, 4 * w * h ≤ data.length →
      pictureBytes data (4 * w) w h = data.take (4 * w * h) := by
  intro h
  induction h with
  | zero => simp [pictureBytes]
  | succ k ih =>
    intro hle
    have hrow : ((List.range w).flatMap fun c =>
        rgbaPixel data (k * (4 * w) + 4 * c)) =
          (data.drop (k * (4 * w))).take (4 * w) := by
      rw [pictureBytes_row data (k * (4 * w)) w (by nlinarith)]
    rw [pictureBytes, List.range_succ, List.flatMap_append]
    rw [pictureBytes] at ih
    rw [ih (by nlinarith), show (4 * w * (k + 1) : ℕ) = 4 * w * k + 4 * w by
      ring, List.take_add]
    simp only [List.flatMap_cons, List.flatMap_nil, List.append_nil]
    rw [hrow, show (k * (4 * w) : ℕ) = 4 * w * k by ring]

/-- C4 (amended): the water/hillshade frame is a lossless RGBA image of
dimensions `(R/2, R/2)` — both axes halved, not `(R/2, R)` — whose pixel
bytes, imported with stride `2R`, are exactly the `R·R` mask bytes in order
(each RGBA pixel packs four consecutive `u8` samples; nothing is splatted).
Decoding the RGBA raster therefore yields back the `R×R` bytes. -/
theorem compress_webp_picture_layout :
    ∀ (R : ℕ) (data : List ℕ), 2 ∣ R → data.length = R * R →
      compress_u8_webp_dims R R = (R / 2, R / 2) ∧
      compress_u8_webp_picture data R R = data := by
  intro R data hdvd hlen
  obtain ⟨k, rfl⟩ := hdvd
  refine ⟨rfl, ?_⟩
  have h2 : (2 * k) / 2 = k := by omega
  have h4 : (2 * k) * 2 = 4 * k := by ring
  rw [compress_u8_webp_picture, h2, h4,
    pictureBytes_packed data k k (by rw [hlen]; ring_nf; omega)]
  calc data.take (4 * k * k) = data.take data.length := by
        rw [hlen]; ring_nf
    _ = data := List.take_length data

/-- Witness for C4 at `R = 2`, `data = [9, 8, 7, 6]`. -/
theorem compress_webp_picture_layout_witness :
    compress_u8_webp_dims 2 2 = (2 / 2, 2 / 2) ∧
    compress_u8_webp_picture [9, 8, 7, 6] 2 2 = [9, 8, 7, 6] :=
  compress_webp_picture_layout 2 [9, 8, 7, 6] (by decide) (by decide)

/-- C4 counterexample: the claim states the image has dimensions
`(R/2, R)` — half width, full height.  The code halves both axes: at
`R = 4` the picture is `2 × 2`, not `2 × 4`. -/
theorem compress_webp_dims_counterexample :
    compress_u8_webp_dims 4 4 = (2, 2) ∧
    compress_u8_webp_dims 4 4 ≠ ((4 / 2 : ℕ), (4 : ℕ)) := by decide

/-! ## Claim theorems: render constant buffer layout (C9).

`Renderer::get_cbuffer_data` (`src/render/src/lib.rs` lines 270–284) fills a
48-byte array.  The `f32` fields (`to_radians`, aspect ratio, altitude, the
heading bytes `(360.0 - heading).to_radians().to_le_bytes()`) are floating
point and are modelled as opaque 4-byte values; the `tile_size` field is
`cache.tile_size().to_le_bytes()` where `TileCache::tile_size` returns `u32`
(`src/render/src/tile_cache.rs` line 209), a pure integer serialization that
is modelled exactly. -/

/-- `Renderer::get_cbuffer_data`: the 48-byte constant buffer.  `latB`,
`lonB`, `vaB`, `arB`, `hdgB`, `altB` stand for the opaque little-endian f32
byte quadruples written at offsets 0, 4, 16, 20, 28 and 32; bytes 24..28
hold the `u32` `tile_size`. -/
def get_cbuffer_data (latB lonB vaB arB hdgB altB : List ℕ)
    (tile_size : ℕ) : List ℕ :=
  latB ++ lonB ++ List.replicate 8 0 ++ vaB ++ arB ++ u32leBytes tile_size ++
    hdgB ++ altB ++ List.replicate 12 0

/-- Floor base-2 logarithm with explicit fuel (structurally recursive so
that concrete instances reduce); `log2fuel 32 n` is `⌊log₂ n⌋` for any
`n < 2 ^ 32`. -/
def log2fuel : ℕ → ℕ → ℕ
  | 0, _ => 0
  | fuel + 1, n => if 2 ≤ n then log2fuel fuel (n / 2) + 1 else 0

/-- Follows the spec's words, not the code: the IEEE-754 binary32 bit
pattern of a positive natural number with at most 24 significant bits
(exponent `⌊log₂ n⌋`, biased by 127; 23-bit mantissa field), which is what
"tile_size … encoded as a little-endian f32" denotes for a representable
`R`. -/
def f32bits (n : ℕ) : ℕ :=
  (log2fuel 32 n + 127) * 2 ^ 23 + (n * 2 ^ 23 / 2 ^ log2fuel 32 n - 2 ^ 23)

/-- Follows the spec's words: the little-endian f32 encoding of `n`. -/
def specF32LeBytes (n : ℕ) : List ℕ := u32leBytes (f32bits n)

/-- C9 (amended): bytes 24..28 of the constant buffer contain `tile_size`
(the resolution `R` of the active LOD dataset) encoded as a little-endian
`u32` — not as an f32 — and bytes 28..32 contain the f32 bytes of
`(360° − heading)` in radians. -/
theorem cbuffer_tile_size_bytes :
    ∀ latB lonB vaB arB hdgB altB : List ℕ, ∀ tile_size : ℕ,
      latB.length = 4 → lonB.length = 4 → vaB.length = 4 → arB.length = 4 →
      hdgB.length = 4 → altB.length = 4 →
      ((get_cbuffer_data latB lonB vaB arB hdgB altB tile_size).drop 24).take 4 =
          u32leBytes tile_size ∧
      ((get_cbuffer_data latB lonB vaB arB hdgB altB tile_size).drop 28).take 4 =
          hdgB ∧
      (get_cbuffer_data latB lonB vaB arB hdgB altB tile_size).length = 48 := by
  intro latB lonB vaB arB hdgB altB ts h1 h2 h3 h4 h5 h6
  have hcb : get_cbuffer_data latB lonB vaB arB hdgB altB ts =
      (latB ++ lonB ++ List.replicate 8 0 ++ vaB ++ arB) ++
        (u32leBytes ts ++ (hdgB ++ altB ++ List.replicate 12 0)) := by
    simp [get_cbuffer_data, List.append_assoc]
  have hplen : (latB ++ lonB ++ List.replicate 8 0 ++ vaB ++ arB).length = 24 := by
    simp [h1, h2, h3, h4]
  have hu32 : (u32leBytes ts).length = 4 := rfl
  refine ⟨?_, ?_, ?_⟩
  · rw [hcb, show (24 : ℕ) =
      (latB ++ lonB ++ List.replicate 8 0 ++ vaB ++ arB).length + 0 by
        rw [hplen], List.drop_append, List.drop_zero,
      List.take_append_of_le_length (by rw [hu32]), List.take_of_length_le
        (by rw [hu32])]
  · have hcb2 : get_cbuffer_data latB lonB vaB arB hdgB altB ts =
        ((latB ++ lonB ++ List.replicate 8 0 ++ vaB ++ arB) ++ u32leBytes ts) ++
          (hdgB ++ (altB ++ List.replicate 12 0)) := by
      simp [get_cbuffer_data, List.append_assoc]
    have hplen2 :
        ((latB ++ lonB ++ List.replicate 8 0 ++ vaB ++ arB) ++
          u32leBytes ts).length = 28 := by
      rw [List.length_append, hplen, hu32]
    rw [hcb2, show (28 : ℕ) =
      ((latB ++ lonB ++ List.replicate 8 0 ++ vaB ++ arB) ++
        u32leBytes ts).length + 0 by rw [hplen2], List.drop_append,
      List.drop_zero, List.take_append_of_le_length (by rw [h5]),
      List.take_of_length_le (by rw [h5])]
  · simp only [get_cbuffer_data, List.length_append, List.length_replicate,
      h1, h2, h3, h4, h5, h6, hu32]

/-- Witness for C9 at concrete zero f32 fields and `tile_size = 1200`. -/
theorem cbuffer_tile_size_bytes_witness :
    ((get_cbuffer_data [0, 0, 0, 0] [0, 0, 0, 0] [0, 0, 0, 0] [0, 0, 0, 0]
        [1, 2, 3, 4] [0, 0, 0, 0] 1200).drop 24).take 4 = u32leBytes 1200 ∧
    ((get_cbuffer_data [0, 0, 0, 0] [0, 0, 0, 0] [0, 0, 0, 0] [0, 0, 0, 0]
        [1, 2, 3, 4] [0, 0, 0, 0] 1200).drop 28).take 4 = [1, 2, 3, 4] ∧
    (get_cbuffer_data [0, 0, 0, 0] [0, 0, 0, 0] [0, 0, 0, 0] [0, 0, 0, 0]
        [1, 2, 3, 4] [0, 0, 0, 0] 1200).length = 48 :=
  cbuffer_tile_size_bytes [0, 0, 0, 0] [0, 0, 0, 0] [0, 0, 0, 0] [0, 0, 0, 0]
    [1, 2, 3, 4] [0, 0, 0, 0] 1200 rfl rfl rfl rfl rfl rfl

/-- C9 counterexample: at `R = 1200` the bytes 24..28 written by the code
are the little-endian `u32` `[176, 4, 0, 0]`, whereas the little-endian f32
encoding of 1200 claimed by the spec is `[0, 0, 150, 68]` (bit pattern
`0x44960000`). -/
theorem cbuffer_tile_size_counterexample :
    ((get_cbuffer_data [0, 0, 0, 0] [0, 0, 0, 0] [0, 0, 0, 0] [0, 0, 0, 0]
        [0, 0, 0, 0] [0, 0, 0, 0] 1200).drop 24).take 4 = [176, 4, 0, 0] ∧
    specF32LeBytes 1200 = [0, 0, 150, 68] ∧
    ([176, 4, 0, 0] : List ℕ) ≠ [0, 0, 150, 68] := by decide

/-! ## GPU tile cache — `src/render/src/tile_cache.rs`. -/

/-- `TileOffset` (tile_cache.rs lines 35–40): an atlas `(x, y)` origin. -/
abbrev TileOffset := ℕ × ℕ

/-- `Atlas::unloaded` (line 428): the sentinel `(0, height)`. -/
def unloadedOffset (height : ℕ) : TileOffset := (0, height)

/-- `Atlas::not_found` (line 430): the sentinel `(width, 0)`. -/
def notFoundOffset (width : ℕ) : TileOffset := (width, 0)

/-- A slot value that is a real atlas origin, i.e. neither sentinel — the
test `*offset != self.unloaded() && *offset != self.not_found()` used by
`collect_tiles` and the eviction branch of `populate_tiles`. -/
def isRealOrigin (width height : ℕ) (t : TileOffset) : Bool :=
  decide (t ≠ unloadedOffset height ∧ t ≠ notFoundOffset width)

/-- The first branch test of the `collect_tiles` loop (line 359):
`used == 1 && *offset == self.unloaded()`. -/
def neededP (height : ℕ) (p : ℕ × TileOffset) : Bool :=
  decide (p.1 = 1 ∧ p.2 = unloadedOffset height)

/-- Result of the `collect_tiles` scan over one zipped suffix: the updated
tile slots, the origins pushed to the free list (in push order), and the
`needed` / `collected` counters. -/
structure CollectResult where
  tiles : List TileOffset
  pushed : List TileOffset
  needed : ℕ
  collected : ℕ

/-- The body of the `collect_tiles` loop (lines 358–368), one zipped
`(used, offset)` pair at a time. -/
def collectAux (width height : ℕ) : List (ℕ × TileOffset) → CollectResult
  | [] => ⟨[], [], 0, 0⟩
  | p :: rest =>
    let r := collectAux width height rest
    if neededP height p then
      ⟨p.2 :: r.tiles, r.pushed, r.needed + 1, r.collected⟩
    else if isRealOrigin width height p.2 then
      ⟨unloadedOffset height :: r.tiles, p.2 :: r.pushed, r.needed,
        r.collected + 1⟩
    else ⟨p.2 :: r.tiles, r.pushed, r.needed, r.collected⟩

/-- `Atlas::collect_tiles` (lines 353–371): scan `used[start+1..]` zipped
with `tiles[start+1..]`, with `needed` initialized to 1; return
`collected >= needed`, the updated `tiles`, and the pushed origins. -/
def Atlas.collect_tiles (width height : ℕ) (used : List ℕ)
    (tiles : List TileOffset) (start : ℕ) :
    Bool × List TileOffset × List TileOffset :=
  let z := (used.drop (start + 1)).zip (tiles.drop (start + 1))
  let r := collectAux width height z
  (decide (r.needed + 1 ≤ r.collected),
   tiles.take (start + 1) ++ r.tiles ++ tiles.drop (start + 1 + z.length),
   r.pushed)

theorem collectAux_spec (width height : ℕ) (z : List (ℕ × TileOffset)) :
    collectAux width height z =
      ⟨z.map (fun p => if isRealOrigin width height p.2 then
          unloadedOffset height else p.2),
       (z.map Prod.snd).filter (fun t => isRealOrigin width height t),
       z.countP (fun p => neededP height p),
       z.countP (fun p => isRealOrigin width height p.2)⟩ := by
  induction z with
  | nil => rfl
  | cons p rest ih =>
    by_cases h1 : neededP height p = true
    · have ht : p.2 = unloadedOffset height := by
        simp [neededP] at h1; exact h1.2
      have h2 : isRealOrigin width height p.2 = false := by
        simp [isRealOrigin, ht]
      simp [collectAux, ih, h1, h2, List.countP_cons]
    · by_cases h2 : isRealOrigin width height p.2 = true
      · simp [collectAux, ih, h1, h2, List.countP_cons]
      · simp [collectAux, ih, h1, h2, List.countP_cons]

/-- C3 (amended): the `collect_tiles` scan reclaims the origin of **every**
cell after `start_index` that holds a real origin — including cells whose
feedback entry marks them used this frame — converting exactly those cells
to `UNLOADED` and pushing their origins onto the free list in scan order;
it counts as `needed` the scanned cells with `used == 1` that are still
`UNLOADED`, and returns whether `collected ≥ 1 + needed`.  (The original
claim — that no used cell is evicted — fails; see the counterexample.) -/
theorem collect_tiles_characterization :
    ∀ (width height : ℕ) (used : List ℕ) (tiles : List TileOffset)
      (start : ℕ),
      Atlas.collect_tiles width height used tiles start =
        (let z := (used.drop (start + 1)).zip (tiles.drop (start + 1))
         (decide (z.countP (fun p => neededP height p) + 1 ≤
            z.countP (fun p => isRealOrigin width height p.2)),
          tiles.take (start + 1) ++
            z.map (fun p => if isRealOrigin width height p.2 then
              unloadedOffset height else p.2) ++
            tiles.drop (start + 1 + z.length),
          (z.map Prod.snd).filter (fun t => isRealOrigin width height t))) := by
  intro width height used tiles start
  simp only [Atlas.collect_tiles, collectAux_spec, List.length_map]

/-- C3 counterexample: with a 2×2 atlas, `used = [0, 1]`, `tiles` holding
the real origin `(1, 1)` at index 1 and `start = 0`, the scanned cell at
index 1 is marked used (`used[1] = 1`) yet its origin is evicted: the slot
becomes `UNLOADED` and `(1, 1)` is pushed onto the free list. -/
theorem collect_tiles_counterexample :
    (Atlas.collect_tiles 2 2 [0, 1] [(0, 2), (1, 1)] 0).2.1 =
        [(0, 2), (0, 2)] ∧
    (Atlas.collect_tiles 2 2 [0, 1] [(0, 2), (1, 1)] 0).2.2 = [(1, 1)] ∧
    [0, 1].getD 1 0 = 1 ∧
    isRealOrigin 2 2 ((1, 1) : TileOffset) = true ∧
    ([(0, 2), (0, 2)] : List TileOffset).getD 1 (0, 0) =
      unloadedOffset 2 := by decide

/-! ## Atlas allocation (C6) — `Atlas::upload_tile`, tile_cache.rs lines
281–351, with the GPU texture writes elided. -/

/-- The allocation-relevant state of `Atlas`: geometry, the resolution `R`
of the active LOD dataset, the bump pointer and the free list. -/
structure AtlasAlloc where
  width : ℕ
  height : ℕ
  res : ℕ
  curr_offset : TileOffset
  collected_tiles : List TileOffset
  deriving DecidableEq, Repr

/-- The bump of `curr_offset` performed after every upload (lines 344–348):
`x += res`, wrapping to `(0, y + res)` when `x + res >= width`. -/
def AtlasAlloc.bump (a : AtlasAlloc) : AtlasAlloc :=
  if a.curr_offset.1 + a.res + a.res ≥ a.width then
    { a with curr_offset := (0, a.curr_offset.2 + a.res) }
  else { a with curr_offset := (a.curr_offset.1 + a.res, a.curr_offset.2) }

/-- The allocation logic of `Atlas::upload_tile`: pop the free list if
non-empty; otherwise take `curr_offset`, unless
`curr_offset.y + res >= height` (line 290), in which case `None`.  On every
successful path the bump is applied (the code bumps after the texture
writes regardless of which path produced the origin). -/
def AtlasAlloc.upload_tile (a : AtlasAlloc) : Option (TileOffset × AtlasAlloc) :=
  match a.collected_tiles with
  | t :: rest => some (t, AtlasAlloc.bump { a with collected_tiles := rest })
  | [] =>
    if a.curr_offset.2 + a.res ≥ a.height then none
    else some (a.curr_offset, a.bump)

/-- Repeated allocation: `allocIter a n` is the result of the `(n+1)`-st
allocation when the first `n` all succeed, `none` if any fails. -/
def allocIter (a : AtlasAlloc) : ℕ → Option (TileOffset × AtlasAlloc)
  | 0 => a.upload_tile
  | n + 1 =>
    match a.upload_tile with
    | some (_, a2) => allocIter a2 n
    | none => none

/-- The pure bump on offsets, for states with an empty free list. -/
def stepO (width res : ℕ) (p : TileOffset) : TileOffset :=
  if p.1 + res + res ≥ width then (0, p.2 + res) else (p.1 + res, p.2)

theorem upload_tile_empty (w h R : ℕ) (p : TileOffset) :
    AtlasAlloc.upload_tile ⟨w, h, R, p, []⟩ =
      if h ≤ p.2 + R then none
      else some (p, ⟨w, h, R, stepO w R p, []⟩) := by
  by_cases hy : h ≤ p.2 + R
  · simp [AtlasAlloc.upload_tile, hy]
  · by_cases hx : p.1 + R + R ≥ w <;>
      simp [AtlasAlloc.upload_tile, AtlasAlloc.bump, stepO, hy, hx]

theorem stepO_y_le (w R : ℕ) (p : TileOffset) : p.2 ≤ (stepO w R p).2 := by
  unfold stepO; split <;> simp

theorem stepO_iterate_y_mono (w R : ℕ) (p : TileOffset) :
    ∀ m n, m ≤ n → ((stepO w R)^[m] p).2 ≤ ((stepO w R)^[n] p).2 := by
  intro m n hmn
  induction n with
  | zero => rw [Nat.le_zero.mp hmn]
  | succ k ih =>
    rcases Nat.lt_or_ge m (k + 1) with hk | hk
    · calc ((stepO w R)^[m] p).2 ≤ ((stepO w R)^[k] p).2 := ih (by omega)
        _ ≤ ((stepO w R)^[k + 1] p).2 := by
            rw [Function.iterate_succ_apply']; exact stepO_y_le w R _
    · rw [Nat.le_antisymm hmn hk]

theorem allocIter_empty (w h R : ℕ) :
    ∀ (n : ℕ) (p : TileOffset),
      (∀ m, m ≤ n → ((stepO w R)^[m] p).2 + R < h) →
      allocIter ⟨w, h, R, p, []⟩ n =
        some ((stepO w R)^[n] p, ⟨w, h, R, (stepO w R)^[n + 1] p, []⟩) := by
  intro n
  induction n with
  | zero =>
    intro p hok
    have h0 := hok 0 (by omega)
    simp only [Function.iterate_zero, id] at h0
    simp [allocIter, upload_tile_empty, show ¬h ≤ p.2 + R by omega]
  | succ k ih =>
    intro p hok
    have h0 := hok 0 (by omega)
    simp only [Function.iterate_zero, id] at h0
    rw [allocIter, upload_tile_empty, if_neg (by omega)]
    show allocIter ⟨w, h, R, stepO w R p, []⟩ k = _
    rw [ih (stepO w R p) (fun m hm => by
      rw [← Function.iterate_succ_apply]; exact hok (m + 1) (by omega))]
    rw [← Function.iterate_succ_apply, ← Function.iterate_succ_apply]

theorem stepO_row_pos (w R y : ℕ) :
    ∀ i, i * R + R < w → (stepO w R)^[i] (0, y) = (i * R, y) := by
  intro i
  induction i with
  | zero => simp
  | succ k ih =>
    intro hi
    have hk : k * R + R < w := by
      have : k * R ≤ (k + 1) * R := Nat.mul_le_mul_right R (by omega)
      omega
    rw [Function.iterate_succ_apply', ih hk]
    have hs : (k + 1) * R = k * R + R := Nat.succ_mul k R
    rw [stepO, if_neg (by simp only []; omega)]
    simp only [hs]

theorem stepO_reach_next_row (w R : ℕ) (hR : 0 < R) (y : ℕ) :
    ∀ x, ∃ c, (stepO w R)^[c] (x, y) = (0, y + R) := by
  have main : ∀ d x, w - x ≤ d → ∃ c, (stepO w R)^[c] (x, y) = (0, y + R) := by
    intro d
    induction d with
    | zero =>
      intro x hle
      exact ⟨1, by simp [stepO, show x + R + R ≥ w by omega]⟩
    | succ k ih =>
      intro x hle
      by_cases hx : x + R + R ≥ w
      · exact ⟨1, by simp [stepO, hx]⟩
      · obtain ⟨c, hc⟩ := ih (x + R) (by omega)
        refine ⟨c + 1, ?_⟩
        rw [Function.iterate_succ_apply, show stepO w R (x, y) = (x + R, y) by
          simp [stepO, hx]]
        exact hc
  intro x
  exact main (w - x) x (le_refl _)

theorem stepO_reach_row (w R : ℕ) (hR : 0 < R) :
    ∀ j, ∃ n, (stepO w R)^[n] (0, 0) = (0, j * R) := by
  intro j
  induction j with
  | zero => exact ⟨0, by simp⟩
  | succ k ih =>
    obtain ⟨n, hn⟩ := ih
    obtain ⟨c, hc⟩ := stepO_reach_next_row w R hR (k * R) 0
    refine ⟨c + n, ?_⟩
    rw [Function.iterate_add_apply, hn, hc, Nat.succ_mul]

/-- C6 (amended): atlas allocation for the current LOD resolution `R`.  If
the free list is non-empty a recycled origin is popped and returned — and
the bump pointer advances anyway; with an empty free list, `None` is
returned exactly when `curr_offset.y + R ≥ height` (so the bottom row of
slots is never bump-allocated), and otherwise `curr_offset` is returned and
advanced by `R` in x, wrapping to the next row as soon as the following
slot would reach `width` (`x + R + R ≥ width`, so the rightmost column is
never bump-allocated).  Every slot `(i·R, j·R)` with `i·R + R < width` and
`j·R + R < height` is allocated before `None` is ever returned. -/
theorem atlas_allocation :
    (∀ (a : AtlasAlloc) (t : TileOffset) (rest : List TileOffset),
      a.collected_tiles = t :: rest →
      a.upload_tile = some (t, AtlasAlloc.bump { a with collected_tiles := rest })) ∧
    (∀ a : AtlasAlloc, a.collected_tiles = [] →
      (a.upload_tile = none ↔ a.height ≤ a.curr_offset.2 + a.res)) ∧
    (∀ w h R i j : ℕ, 0 < R → i * R + R < w → j * R + R < h →
      ∃ n a2, allocIter ⟨w, h, R, (0, 0), []⟩ n =
        some ((i * R, j * R), a2)) := by
  refine ⟨?_, ?_, ?_⟩
  · intro a t rest hco
    rw [AtlasAlloc.upload_tile, hco]
  · intro a hco
    obtain ⟨w, h, R, p, co⟩ := a
    subst hco
    rw [upload_tile_empty]
    split
    · rename_i hcond; exact iff_of_true rfl hcond
    · rename_i hcond; exact iff_of_false (by simp) hcond
  · intro w h R i j hR hi hj
    obtain ⟨n, hn⟩ := stepO_reach_row w R hR j
    have hpos : (stepO w R)^[i + n] (0, 0) = (i * R, j * R) := by
      rw [Function.iterate_add_apply, hn, stepO_row_pos w R (j * R) i hi]
    have hy : ∀ m, m ≤ i + n → ((stepO w R)^[m] (0, 0)).2 + R < h := by
      intro m hm
      have hmono := stepO_iterate_y_mono w R (0, 0) m (i + n) hm
      rw [hpos] at hmono
      simp only [] at hmono
      omega
    refine ⟨i + n, ⟨w, h, R, (stepO w R)^[i + n + 1] (0, 0), []⟩, ?_⟩
    rw [allocIter_empty w h R (i + n) (0, 0) hy, hpos]

/-- Witness for C6: the pop path, the `None` characterization and the
reachability clause at concrete states. -/
theorem atlas_allocation_witness :
    AtlasAlloc.upload_tile ⟨4, 4, 1, (0, 0), [(3, 3)]⟩ =
      some ((3, 3), AtlasAlloc.bump ⟨4, 4, 1, (0, 0), []⟩) ∧
    (AtlasAlloc.upload_tile ⟨4, 4, 1, (0, 3), []⟩ = none ↔ (4 : ℕ) ≤ 3 + 1) ∧
    ∃ n a2, allocIter ⟨4, 4, 1, (0, 0), []⟩ n = some ((1 * 1, 1 * 1), a2) :=
  ⟨atlas_allocation.1 ⟨4, 4, 1, (0, 0), [(3, 3)]⟩ (3, 3) [] rfl,
   atlas_allocation.2.1 ⟨4, 4, 1, (0, 3), []⟩ rfl,
   atlas_allocation.2.2 4 4 1 1 1 (by decide) (by decide) (by decide)⟩

/-- C6 counterexample: on a 2×2-slot atlas (`width = height = 2`, `R = 1`)
with an empty free list, only the slot `(0, 0)` is ever bump-allocated:
the second allocation returns `None` although the slot `(0, 1)` satisfies
`x + R ≤ width` and `y + R ≤ height`, contradicting the claim that every
such slot is allocatable before `None` and that `None` occurs only when the
next row would exceed the height. -/
theorem atlas_allocation_counterexample :
    AtlasAlloc.upload_tile ⟨2, 2, 1, (0, 0), []⟩ =
      some ((0, 0), ⟨2, 2, 1, (0, 1), []⟩) ∧
    AtlasAlloc.upload_tile ⟨2, 2, 1, (0, 1), []⟩ = none ∧
    (0 : ℕ) + 1 ≤ 2 ∧ (1 : ℕ) + 1 ≤ 2 := by decide

/-! ## TileCache / Atlas initial state and LOD selection (C10).

`Atlas::new` computes one LOD density per dataset with `radians_per_pixel`
(a function of `render/src/range.rs`, not needed here beyond its type: the
densities are abstracted as arbitrary rationals produced by `rppOf`), sizes
the atlas at 4096² capped to the device limit, and initializes
`curr_dataset` to `datasets.len()` (tile_cache.rs line 243). -/

/-- `Atlas::get_dataset_for_angle` (tile_cache.rs lines 257–267): walk the
enumerated densities in reverse and return the index of the first with
`radians_per_pixel >= density`; default 0. -/
def get_dataset_for_angle (densities : List ℚ) (rpp : ℚ) : ℕ :=
  match densities.enum.reverse.find? (fun p => decide (p.2 ≤ rpp)) with
  | some p => p.1
  | none => 0

/-- The `Atlas` fields relevant to dataset selection (the datasets are
represented by their metadata, which is all `tile_size` reads). -/
structure RenderAtlas where
  datasets : List TileMetadata
  lod_densities : List ℚ
  width : ℕ
  height : ℕ
  curr_dataset : ℕ
  curr_offset : TileOffset
  collected_tiles : List TileOffset

/-- `Atlas::new` (lines 227–255). -/
def RenderAtlas.new (rppOf : TileMetadata → ℚ) (datasets : List TileMetadata)
    (maxDim : ℕ) : RenderAtlas :=
  { datasets := datasets
    lod_densities := datasets.map rppOf
    width := min 4096 maxDim
    height := min 4096 maxDim
    curr_dataset := datasets.length
    curr_offset := (0, 0)
    collected_tiles := [] }

/-- `Atlas::needs_clear` (lines 269–271). -/
def RenderAtlas.needs_clear (a : RenderAtlas) (rpp : ℚ) : Bool :=
  decide (get_dataset_for_angle a.lod_densities rpp ≠ a.curr_dataset)

/-- `Atlas::clear` (lines 273–277). -/
def RenderAtlas.clear (a : RenderAtlas) (rpp : ℚ) : RenderAtlas :=
  { a with
    curr_offset := (0, 0)
    collected_tiles := []
    curr_dataset := get_dataset_for_angle a.lod_densities rpp }

/-- The `TileCache` state relevant here: the tile-map shadow and the atlas. -/
structure TileCacheSt where
  tiles : List TileOffset
  atlas : RenderAtlas

/-- `TileCache::new` (lines 51–86): every slot starts `UNLOADED`. -/
def TileCache.new (rppOf : TileMetadata → ℚ) (datasets : List TileMetadata)
    (maxDim : ℕ) : TileCacheSt :=
  let a := RenderAtlas.new rppOf datasets maxDim
  { tiles := List.replicate 64800 (unloadedOffset a.height), atlas := a }

/-- The head of `TileCache::populate_tiles` (lines 93–95) together with
`TileCache::clear` (lines 194–199): when `needs_clear`, set every slot to
`UNLOADED` and reset the atlas, which selects the dataset for the current
angle. -/
def TileCache.populate_clear (tc : TileCacheSt) (rpp : ℚ) : TileCacheSt :=
  if tc.atlas.needs_clear rpp then
    { tiles := List.replicate 64800 (unloadedOffset tc.atlas.height)
      atlas := tc.atlas.clear rpp }
  else tc

/-- `TileCache::tile_size` (line 209):
`datasets[curr_dataset].metadata().resolution`.  The out-of-bounds index
panic of the Rust `Vec` indexing is modelled as `none`. -/
def TileCache.tile_size (tc : TileCacheSt) : Option ℕ :=
  (tc.atlas.datasets[tc.atlas.curr_dataset]?).map fun m => m.resolution

theorem get_dataset_for_angle_lt (densities : List ℚ) (rpp : ℚ)
    (hne : densities ≠ []) :
    get_dataset_for_angle densities rpp < densities.length := by
  unfold get_dataset_for_angle
  split
  · rename_i p hp
    have hmem := List.mem_of_find?_eq_some hp
    rw [List.mem_reverse] at hmem
    have hget := List.mem_enum_iff_getElem?.mp hmem
    have := List.getElem?_eq_some.mp hget
    exact this.1
  · cases densities with
    | nil => exact absurd rfl hne
    | cons d ds => simp

/-- C10: immediately after `TileCache::new` with `N ≥ 1` datasets, the
atlas's `curr_dataset` equals `N`, which is outside the valid range
`[0, N)`; consequently `needs_clear` is true for every radians-per-pixel
value, so the first `populate_tiles` call clears all tiles and selects a
real dataset (index `< N`) before any tile is fetched, while `tile_size`
before the first `populate_tiles` indexes `datasets` out of bounds. -/
theorem tile_cache_initial_state :
    ∀ (rppOf : TileMetadata → ℚ) (datasets : List TileMetadata) (maxDim : ℕ),
      1 ≤ datasets.length →
      (TileCache.new rppOf datasets maxDim).atlas.curr_dataset =
          datasets.length ∧
      ¬((TileCache.new rppOf datasets maxDim).atlas.curr_dataset <
          datasets.length) ∧
      (∀ rpp : ℚ,
        (TileCache.new rppOf datasets maxDim).atlas.needs_clear rpp = true) ∧
      (∀ rpp : ℚ,
        (TileCache.populate_clear (TileCache.new rppOf datasets maxDim)
            rpp).tiles =
          List.replicate 64800
            (unloadedOffset (TileCache.new rppOf datasets maxDim).atlas.height) ∧
        (TileCache.populate_clear (TileCache.new rppOf datasets maxDim)
            rpp).atlas.curr_dataset < datasets.length) ∧
      TileCache.tile_size (TileCache.new rppOf datasets maxDim) = none := by
  intro rppOf datasets maxDim hN
  have hne : datasets.map rppOf ≠ [] := by
    intro hc
    rw [List.map_eq_nil_iff] at hc
    subst hc
    simp at hN
  have hlt : ∀ rpp : ℚ,
      get_dataset_for_angle (datasets.map rppOf) rpp < datasets.length := by
    intro rpp
    have := get_dataset_for_angle_lt (datasets.map rppOf) rpp hne
    rwa [List.length_map] at this
  have hclear : ∀ rpp : ℚ,
      (TileCache.new rppOf datasets maxDim).atlas.needs_clear rpp = true := by
    intro rpp
    simp only [TileCache.new, RenderAtlas.new, RenderAtlas.needs_clear,
      decide_eq_true_eq]
    exact Nat.ne_of_lt (hlt rpp)
  refine ⟨rfl, fun hc => Nat.lt_irrefl datasets.length hc, hclear, ?_, ?_⟩
  · intro rpp
    rw [TileCache.populate_clear, if_pos (hclear rpp)]
    exact ⟨rfl, hlt rpp⟩
  · rw [TileCache.tile_size]
    have : (TileCache.new rppOf datasets
        maxDim).atlas.datasets[(TileCache.new rppOf datasets
          maxDim).atlas.curr_dataset]? = none :=
      List.getElem?_eq_none (le_refl _)
    rw [this]
    rfl

/-- Witness for C10 with one dataset and `rpp = 3`. -/
theorem tile_cache_initial_state_witness :
    (TileCache.new (fun _ => 0) [⟨8, 1200, 1⟩] 4096).atlas.curr_dataset = 1 ∧
    (TileCache.new (fun _ => 0) [⟨8, 1200, 1⟩] 4096).atlas.needs_clear 3 =
      true ∧
    (TileCache.populate_clear
        (TileCache.new (fun _ => 0) [⟨8, 1200, 1⟩] 4096) 3).atlas.curr_dataset
      < 1 ∧
    TileCache.tile_size (TileCache.new (fun _ => 0) [⟨8, 1200, 1⟩] 4096) =
      none := by
  obtain ⟨h1, h2, h3, h4, h5⟩ :=
    tile_cache_initial_state (fun _ => 0) [⟨8, 1200, 1⟩] 4096 (by decide)
  exact ⟨h1, h3 3, (h4 3).2, h5⟩

/-! ## Offset-table serialization (shared by C1 and C2). -/

theorem map_lat_lon_to_index_lt (lat lon : ℤ) (h1 : -90 ≤ lat) (h2 : lat < 90)
    (h3 : -180 ≤ lon) (h4 : lon < 180) :
    map_lat_lon_to_index lat lon < 64800 := by
  unfold map_lat_lon_to_index; omega

theorem drop_of_length_eq (l b : List ℕ) (n : ℕ) (h : l.length = n) :
    (l ++ b).drop n = b := by
  subst h; exact List.drop_left l b

theorem take_of_length_eq (l b : List ℕ) (n : ℕ) (h : l.length = n) :
    (l ++ b).take n = l := by
  subst h; exact List.take_left l b

theorem readU16le_append_left (l b : List ℕ) (off : ℕ)
    (h : off + 1 < l.length) :
    readU16le (l ++ b) off = readU16le l off := by
  unfold readU16le
  rw [List.getD_append _ _ _ _ (by omega), List.getD_append _ _ _ _ (by omega)]

theorem readU64le_append_right (l b : List ℕ) (off : ℕ) (h : l.length ≤ off) :
    readU64le (l ++ b) off = readU64le b (off - l.length) := by
  unfold readU64le
  rw [List.getD_append_right l b 0 off h,
    List.getD_append_right l b 0 (off + 1) (by omega),
    List.getD_append_right l b 0 (off + 2) (by omega),
    List.getD_append_right l b 0 (off + 3) (by omega),
    List.getD_append_right l b 0 (off + 4) (by omega),
    List.getD_append_right l b 0 (off + 5) (by omega),
    List.getD_append_right l b 0 (off + 6) (by omega),
    List.getD_append_right l b 0 (off + 7) (by omega),
    show off + 1 - l.length = off - l.length + 1 by omega,
    show off + 2 - l.length = off - l.length + 2 by omega,
    show off + 3 - l.length = off - l.length + 3 by omega,
    show off + 4 - l.length = off - l.length + 4 by omega,
    show off + 5 - l.length = off - l.length + 5 by omega,
    show off + 6 - l.length = off - l.length + 6 by omega,
    show off + 7 - l.length = off - l.length + 7 by omega]

theorem readU64le_tileMapBytes (tm : List ℕ) :
    ∀ (i : ℕ) (post : List ℕ), i < tm.length →
      readU64le (tileMapBytes tm ++ post) (8 * i) = tm.getD i 0 % 2 ^ 64 := by
  induction tm with
  | nil => intro i post hi; simp at hi
  | cons t ts ih =>
    intro i post hi
    rw [tileMapBytes, List.flatMap_cons, List.append_assoc]
    cases i with
    | zero =>
      rw [Nat.mul_zero, readU64le_u64leBytes, List.getD_cons_zero]
    | succ k =>
      rw [readU64le_append_right _ _ _ (by rw [u64leBytes_length]; omega),
        show 8 * (k + 1) - (u64leBytes t).length = 8 * k by
          rw [u64leBytes_length]; omega,
        List.getD_cons_succ]
      have hk := ih k post (by simpa using hi)
      rwa [tileMapBytes] at hk

theorem parseTileMap_serialize (pre tm post : List ℕ) (hpre : pre.length = 32)
    (htm : tm.length = 64800) (hbound : ∀ x ∈ tm, x < 2 ^ 64) :
    parseTileMap (pre ++ (tileMapBytes tm ++ post)) = tm := by
  apply List.ext_getElem
  · rw [parseTileMap, List.length_map, List.length_range, htm]
  · intro n h1 h2
    simp only [parseTileMap, List.getElem_map, List.getElem_range]
    rw [show (32 : ℕ) + 8 * n = pre.length + 8 * n by rw [hpre],
      readU64le_append_right pre _ _ (by omega),
      show pre.length + 8 * n - pre.length = 8 * n by omega,
      readU64le_tileMapBytes tm n post (by omega),
      List.getD_eq_getElem tm 0 (by omega)]
    exact Nat.mod_eq_of_lt (hbound _ (List.getElem_mem _))

theorem readU16le_headerBytes (m : TileMetadata) (x : List ℕ) :
    readU16le (headerBytes m ++ x) 5 = m.version % 65536 ∧
    readU16le (headerBytes m ++ x) 7 = m.resolution % 65536 ∧
    readU16le (headerBytes m ++ x) 9 = m.height_resolution % 65536 := by
  have hl := headerBytes_length m
  rw [readU16le_append_left _ _ 5 (by omega),
    readU16le_append_left _ _ 7 (by omega),
    readU16le_append_left _ _ 9 (by omega)]
  have e5 : (headerBytes m).getD 5 0 = m.version % 256 := rfl
  have e6 : (headerBytes m).getD 6 0 = m.version / 256 % 256 := rfl
  have e7 : (headerBytes m).getD 7 0 = m.resolution % 256 := rfl
  have e8 : (headerBytes m).getD 8 0 = m.resolution / 256 % 256 := rfl
  have e9 : (headerBytes m).getD 9 0 = m.height_resolution % 256 := rfl
  have e10 : (headerBytes m).getD 10 0 = m.height_resolution / 256 % 256 := rfl
  unfold readU16le
  rw [show (5 : ℕ) + 1 = 6 from rfl, show (7 : ℕ) + 1 = 8 from rfl,
    show (9 : ℕ) + 1 = 10 from rfl, e5, e6, e7, e8, e9, e10]
  refine ⟨by omega, by omega, by omega⟩

/-! ## Single-tile round trip (C1). -/

/-- The `new → add_tile → flush → load → get_full_tile` pipeline on a fresh
dataset, computed symbolically: the returned elevation is the quantised
value multiplied back (as `u16`, hence `% 2 ^ 16`), and water/hillshade are
returned byte-identical. -/
theorem single_tile_roundtrip
    (ce : ElevCodec) (ci : ImgCodec) (hce : ce.RoundTrip) (hci : ci.RoundTrip)
    (m : TileMetadata) (hv : m.version = 8) (hr : m.resolution < 65536)
    (hh : m.height_resolution < 65536)
    (lat lon : ℤ) (hlat1 : -90 ≤ lat) (hlat2 : lat < 90)
    (hlon1 : -180 ≤ lon) (hlon2 : lon < 180)
    (E W Hs : List ℕ) :
    ∃ ds : Dataset,
      Dataset.load (DatasetBuilder.flush
        (DatasetBuilder.add_tile ce ci (DatasetBuilder.new m) lat lon E W
          Hs)).file = .ok ds ∧
      ds.metadata.height_resolution = m.height_resolution ∧
      ds.get_full_tile ce ci lat lon =
        some (.ok
          (E.map fun x =>
            quantise m.height_resolution x * m.height_resolution % 2 ^ 16,
           W, Hs)) := by
  have hidx := map_lat_lon_to_index_lt lat lon hlat1 hlat2 hlon1 hlon2
  have hlen0 : (headerBytes m ++ tileMapBytes (List.replicate 64800 0)).length
      = 518432 := by
    rw [List.length_append, headerBytes_length, tileMapBytes_length,
      List.length_replicate]
  have hadd : DatasetBuilder.add_tile ce ci (DatasetBuilder.new m) lat lon E W
      Hs =
      { metadata := m
        tile_map := (List.replicate 64800 0).set
          (map_lat_lon_to_index lat lon) 518432
        file := (headerBytes m ++ tileMapBytes (List.replicate 64800 0)) ++
          recordBytes ce ci m E W Hs } := by
    simp only [DatasetBuilder.add_tile, DatasetBuilder.new, hlen0]
  have htm1len : ((List.replicate (64800 : ℕ) 0).set
      (map_lat_lon_to_index lat lon) 518432).length = 64800 := by
    rw [List.length_set, List.length_replicate]
  have htake : ((headerBytes m ++ tileMapBytes (List.replicate 64800 0)) ++
      recordBytes ce ci m E W Hs).take 32 = headerBytes m := by
    rw [List.append_assoc,
      show (32 : ℕ) = (headerBytes m).length from (headerBytes_length m).symm,
      List.take_left]
  have hdrop : ((headerBytes m ++ tileMapBytes (List.replicate 64800 0)) ++
      recordBytes ce ci m E W Hs).drop 518432 = recordBytes ce ci m E W Hs := by
    rw [show (518432 : ℕ) =
      (headerBytes m ++ tileMapBytes (List.replicate 64800 0)).length from
        hlen0.symm, List.drop_left]
  have hflush : (DatasetBuilder.flush (DatasetBuilder.add_tile ce ci
      (DatasetBuilder.new m) lat lon E W Hs)).file =
      headerBytes m ++
        (tileMapBytes ((List.replicate 64800 0).set
          (map_lat_lon_to_index lat lon) 518432) ++
         recordBytes ce ci m E W Hs) := by
    rw [hadd]
    simp only [DatasetBuilder.flush]
    rw [show PREFIX_SIZE = 518432 from rfl, htake, hdrop, List.append_assoc]
  rw [hflush]
  have hfilelen : 518432 ≤ (headerBytes m ++
      (tileMapBytes ((List.replicate 64800 0).set
        (map_lat_lon_to_index lat lon) 518432) ++
       recordBytes ce ci m E W Hs)).length := by
    rw [List.length_append, List.length_append, headerBytes_length,
      tileMapBytes_length, htm1len]
    omega
  have hmagic : (headerBytes m ++
      (tileMapBytes ((List.replicate 64800 0).set
        (map_lat_lon_to_index lat lon) 518432) ++
       recordBytes ce ci m E W Hs)).take 5 = MAGIC := by
    rw [headerBytes]
    simp only [List.append_assoc]
    rw [show (5 : ℕ) = MAGIC.length from rfl, List.take_left]
  have hread := readU16le_headerBytes m
    (tileMapBytes ((List.replicate 64800 0).set
      (map_lat_lon_to_index lat lon) 518432) ++ recordBytes ce ci m E W Hs)
  have hv16 : readU16le (headerBytes m ++
      (tileMapBytes ((List.replicate 64800 0).set
        (map_lat_lon_to_index lat lon) 518432) ++
       recordBytes ce ci m E W Hs)) 5 = 8 := by
    rw [hread.1, hv]
  have hr16 : readU16le (headerBytes m ++
      (tileMapBytes ((List.replicate 64800 0).set
        (map_lat_lon_to_index lat lon) 518432) ++
       recordBytes ce ci m E W Hs)) 7 = m.resolution := by
    rw [hread.2.1]; exact Nat.mod_eq_of_lt (by omega)
  have hh16 : readU16le (headerBytes m ++
      (tileMapBytes ((List.replicate 64800 0).set
        (map_lat_lon_to_index lat lon) 518432) ++
       recordBytes ce ci m E W Hs)) 9 = m.height_resolution := by
    rw [hread.2.2]; exact Nat.mod_eq_of_lt (by omega)
  have hparse : parseTileMap (headerBytes m ++
      (tileMapBytes ((List.replicate 64800 0).set
        (map_lat_lon_to_index lat lon) 518432) ++
       recordBytes ce ci m E W Hs)) =
      (List.replicate 64800 0).set (map_lat_lon_to_index lat lon) 518432 := by
    refine parseTileMap_serialize _ _ _ (headerBytes_length m) htm1len ?_
    intro x hx
    rcases List.mem_or_eq_of_mem_set hx with hx2 | rfl
    · rw [List.eq_of_mem_replicate hx2]; norm_num
    · norm_num
  have hlen1 : (headerBytes m ++
      tileMapBytes ((List.replicate 64800 0).set
        (map_lat_lon_to_index lat lon) 518432)).length = 518432 := by
    rw [List.length_append, headerBytes_length, tileMapBytes_length, htm1len]
  have hdata : (headerBytes m ++
      (tileMapBytes ((List.replicate 64800 0).set
        (map_lat_lon_to_index lat lon) 518432) ++
       recordBytes ce ci m E W Hs)).drop 518432 =
      recordBytes ce ci m E W Hs := by
    rw [← List.append_assoc]
    exact drop_of_length_eq _ _ _ hlen1
  have hload := (load_cases _).2.2.2 hfilelen hmagic hv16
  rw [hr16, hh16, hparse, hdata] at hload
  refine ⟨_, hload, rfl, ?_⟩
  · have hoff : ((List.replicate (64800 : ℕ) 0).set
        (map_lat_lon_to_index lat lon) 518432).getD
        (map_lat_lon_to_index lat lon) 0 = 518432 := by
      rw [List.getD_eq_getElem?_getD, List.getElem?_set, if_pos rfl,
        List.length_replicate, if_pos hidx]
      rfl
    have hlast : ci.dec m.resolution (ci.enc m.resolution Hs) =
        some (Hs, (ci.enc m.resolution Hs).length) := by
      have h0 := hci m.resolution Hs []
      rwa [List.append_nil] at h0
    simp only [Dataset.get_full_tile, hoff]
    rw [if_neg (show ¬(518432 : ℕ) = 0 by norm_num)]
    rw [show (518432 : ℕ) - PREFIX_SIZE = 0 from rfl, List.drop_zero,
      recordBytes]
    have hceq := hce m.resolution (E.map (quantise m.height_resolution))
      (ci.enc m.resolution W ++ ci.enc m.resolution Hs)
    have hciW := hci m.resolution W (ci.enc m.resolution Hs)
    simp only [hceq, List.drop_left, hciW, hlast, List.map_map, Function.comp]
    rfl

theorem quantise_eq_div (h x : ℕ) (hh : 1 ≤ h) (hx : x < 65536) :
    quantise h x = (2 * x + h) / (2 * h) := by
  unfold quantise
  have hle : (2 * x + h) / (2 * h) ≤ x := by
    have hlt : (2 * x + h) / (2 * h) < x + 1 := by
      rw [Nat.div_lt_iff_lt_mul (by omega)]
      nlinarith
    omega
  exact Nat.min_eq_left (by omega)

theorem quantise_mul_bound (h x : ℕ) (hh : 1 ≤ h) (hx : x < 65536) :
    2 * ((quantise h x * h : ℤ) - x).natAbs ≤ h := by
  rw [quantise_eq_div h x hh hx]
  have hdm := Nat.div_add_mod (2 * x + h) (2 * h)
  have hr : (2 * x + h) % (2 * h) < 2 * h := Nat.mod_lt _ (by omega)
  have heq : 2 * ((2 * x + h) / (2 * h) * h) + (2 * x + h) % (2 * h) =
      2 * x + h := by
    nlinarith [hdm]
  omega

/-- C1 (amended): for every valid cell and every `u16` payload whose
quantised elevation multiplied back by `height_resolution` does not overflow
`u16` (the code's multiply-back `x * height_resolution` is a `u16`
multiplication), after `add_tile` and a `flush`, loading the file and
calling `get_full_tile` returns `Some(Ok((E2, W, H)))` with
`|E2[i] − E[i]| ≤ height_resolution / 2` for every sample, water and
hillshade byte-identical — assuming the two opaque codecs are inverse
pairs.  Without the no-overflow proviso the claim fails (see the
counterexample). -/
theorem add_tile_roundtrip :
    ∀ (ce : ElevCodec) (ci : ImgCodec), ce.RoundTrip → ci.RoundTrip →
    ∀ m : TileMetadata, m.version = 8 → m.resolution < 65536 →
    1 ≤ m.height_resolution → m.height_resolution < 65536 →
    ∀ lat lon : ℤ, -90 ≤ lat → lat < 90 → -180 ≤ lon → lon < 180 →
    ∀ E W Hs : List ℕ, (∀ x ∈ E, x < 65536) →
    (∀ x ∈ E, quantise m.height_resolution x * m.height_resolution < 2 ^ 16) →
    ∃ (ds : Dataset) (E2 : List ℕ),
      Dataset.load (DatasetBuilder.flush (DatasetBuilder.add_tile ce ci
        (DatasetBuilder.new m) lat lon E W Hs)).file = .ok ds ∧
      ds.get_full_tile ce ci lat lon = some (.ok (E2, W, Hs)) ∧
      E2.length = E.length ∧
      ∀ i, i < E.length →
        2 * ((E2.getD i 0 : ℤ) - (E.getD i 0 : ℤ)).natAbs ≤
          m.height_resolution := by
  intro ce ci hce hci m hv hr hh1 hh2 lat lon hlat1 hlat2 hlon1 hlon2 E W Hs
    hE hov
  obtain ⟨ds, hload, hmet, hget⟩ := single_tile_roundtrip ce ci hce hci m hv
    hr hh2 lat lon hlat1 hlat2 hlon1 hlon2 E W Hs
  refine ⟨ds,
    E.map (fun x =>
      quantise m.height_resolution x * m.height_resolution % 2 ^ 16),
    hload, hget, by rw [List.length_map], ?_⟩
  intro i hi
  have hlt : i < (E.map (fun x =>
      quantise m.height_resolution x * m.height_resolution % 2 ^ 16)).length := by
    rw [List.length_map]; exact hi
  rw [List.getD_eq_getElem _ _ hlt, List.getElem_map,
    List.getD_eq_getElem _ _ hi]
  have hmem : E[i] ∈ E := List.getElem_mem hi
  rw [Nat.mod_eq_of_lt (hov _ hmem)]
  exact quantise_mul_bound m.height_resolution E[i] hh1 (hE _ hmem)

/-- Witness for C1: metadata `{v 8, R 4, H 1}`, cell `(0, 0)`, payload
`E = [500]`, `W = [0]`, `H = [7]`, with the length-prefixed codecs. -/
theorem add_tile_roundtrip_witness :
    ∃ (ds : Dataset) (E2 : List ℕ),
      Dataset.load (DatasetBuilder.flush (DatasetBuilder.add_tile lpElevCodec
        lpImgCodec (DatasetBuilder.new ⟨8, 4, 1⟩) 0 0 [500] [0] [7])).file =
        .ok ds ∧
      ds.get_full_tile lpElevCodec lpImgCodec 0 0 =
        some (.ok (E2, [0], [7])) ∧
      E2.length = [500].length ∧
      ∀ i, i < [500].length →
        2 * ((E2.getD i 0 : ℤ) - (([500] : List ℕ).getD i 0 : ℤ)).natAbs ≤
          1 :=
  add_tile_roundtrip lpElevCodec lpImgCodec lpElevCodec_roundTrip
    lpImgCodec_roundTrip ⟨8, 4, 1⟩ rfl (by norm_num) (by norm_num)
    (by norm_num) 0 0 (by norm_num) (by norm_num) (by norm_num) (by norm_num)
    [500] [0] [7] (by decide) (by decide)

/-- C1 counterexample: at metadata `{v 8, R 1, H 2}` and payload
`E = [65535]` (a legal `u16` sample), the quantised value is
`round(65535/2) = 32768` and the multiply-back `32768 * 2` overflows `u16`
to 0, so `get_full_tile` returns elevation `[0]`; `|0 − 65535| = 65535`
exceeds `height_resolution / 2 = 1`, refuting the claim as stated. -/
theorem add_tile_roundtrip_counterexample :
    ∃ ds : Dataset,
      Dataset.load (DatasetBuilder.flush (DatasetBuilder.add_tile lpElevCodec
        lpImgCodec (DatasetBuilder.new ⟨8, 1, 2⟩) 0 0 [65535] [0] [0])).file =
        .ok ds ∧
      ds.get_full_tile lpElevCodec lpImgCodec 0 0 =
        some (.ok ([0], [0], [0])) ∧
      ¬(2 * (((0 : ℕ) : ℤ) - ((65535 : ℕ) : ℤ)).natAbs ≤ 2) := by
  obtain ⟨ds, hload, hmet, hget⟩ := single_tile_roundtrip lpElevCodec
    lpImgCodec lpElevCodec_roundTrip lpImgCodec_roundTrip ⟨8, 1, 2⟩ rfl
    (by norm_num) (by norm_num) 0 0 (by norm_num) (by norm_num) (by norm_num)
    (by norm_num) [65535] [0] [0]
  refine ⟨ds, hload, ?_, by decide⟩
  rw [hget]
  rfl

/-! ## Builder histories and crash safety (C2). -/

/-- A builder operation: a fully successful `add_tile`, an `add_tile` whose
append failed after `k` bytes reached the file (the in-memory offset-table
update at builder.rs line 114 precedes the `write_all` calls), or `flush`. -/
inductive BuilderOp where
  | add (lat lon : ℤ) (E W Hs : List ℕ)
  | addFail (lat lon : ℤ) (E W Hs : List ℕ) (k : ℕ)
  | flush

/-- One builder step. -/
def BuilderOp.step (ce : ElevCodec) (ci : ImgCodec) (s : BuilderState) :
    BuilderOp → BuilderState
  | .add lat lon E W Hs => DatasetBuilder.add_tile ce ci s lat lon E W Hs
  | .addFail lat lon E W Hs k =>
      DatasetBuilder.add_tile_partial ce ci s lat lon E W Hs k
  | .flush => DatasetBuilder.flush s

/-- Run a sequence of builder operations. -/
def BuilderOp.run (ce : ElevCodec) (ci : ImgCodec) (s : BuilderState) :
    List BuilderOp → BuilderState
  | [] => s
  | op :: ops => BuilderOp.run ce ci (BuilderOp.step ce ci s op) ops

/-- The operation completed without an I/O error. -/
def BuilderOp.success : BuilderOp → Prop
  | .addFail _ _ _ _ _ _ => False
  | _ => True

/-- The sequential decode of one tile record, as the reader performs it:
elevation frame, then water, then hillshade, returning the payloads and the
total consumed length. -/
def decodeRecord (ce : ElevCodec) (ci : ImgCodec) (res : ℕ) (bytes : List ℕ) :
    Option ((List ℕ × List ℕ × List ℕ) × ℕ) :=
  match ce.dec res bytes with
  | none => none
  | some (e, len) =>
    match ci.dec res (bytes.drop len) with
    | none => none
    | some (w, len2) =>
      match ci.dec res ((bytes.drop len).drop len2) with
      | none => none
      | some (h, len3) => some ((e, w, h), len + len2 + len3)

/-- The record at offset `o` is fully contained in the file and decodes
without error. -/
def RecordOk (ce : ElevCodec) (ci : ImgCodec) (res : ℕ) (file : List ℕ)
    (o : ℕ) : Prop :=
  ∃ r len, decodeRecord ce ci res (file.drop o) = some (r, len) ∧
    o + len ≤ file.length

/-- The bytes from offset `o` start with a complete three-frame record. -/
def ValidRecordAt (ce : ElevCodec) (ci : ImgCodec) (res : ℕ) (file : List ℕ)
    (o : ℕ) : Prop :=
  ∃ e w h rest, file.drop o =
    ce.enc res e ++ (ci.enc res w ++ (ci.enc res h ++ rest))

/-- The builder's structural invariant: fixed metadata, a 64800-entry table,
a file at least as long as the fixed prefix, and every non-zero table entry
pointing at a complete record past the prefix. -/
def Inv (ce : ElevCodec) (ci : ImgCodec) (m : TileMetadata)
    (s : BuilderState) : Prop :=
  s.metadata = m ∧
  s.tile_map.length = 64800 ∧
  518432 ≤ s.file.length ∧
  ∀ i, s.tile_map.getD i 0 ≠ 0 →
    518432 ≤ s.tile_map.getD i 0 ∧
    s.tile_map.getD i 0 ≤ s.file.length ∧
    ValidRecordAt ce ci m.resolution s.file (s.tile_map.getD i 0)

theorem new_file_length (m : TileMetadata) :
    (DatasetBuilder.new m).file.length = 518432 := by
  simp only [DatasetBuilder.new]
  rw [List.length_append, headerBytes_length, tileMapBytes_length,
    List.length_replicate]

theorem getD_replicate_zero (n i : ℕ) :
    (List.replicate n (0 : ℕ)).getD i 0 = 0 := by
  rw [List.getD_eq_getElem?_getD, List.getElem?_replicate]
  split <;> rfl

theorem getD_set_ite (tm : List ℕ) (idx i v : ℕ) :
    (tm.set idx v).getD i 0 =
      if idx = i ∧ idx < tm.length then v else tm.getD i 0 := by
  rw [List.getD_eq_getElem?_getD, List.getElem?_set,
    List.getD_eq_getElem?_getD]
  by_cases h1 : idx = i
  · subst h1
    by_cases h2 : idx < tm.length
    · simp [h2]
    · rw [if_pos rfl, if_neg h2,
        if_neg (by tauto : ¬(idx = idx ∧ idx < tm.length)),
        List.getElem?_eq_none (by omega : tm.length ≤ idx)]
  · rw [if_neg h1, if_neg (by tauto)]

theorem drop_append_ge (A B : List ℕ) (o : ℕ) (h : A.length ≤ o) :
    (A ++ B).drop o = B.drop (o - A.length) := by
  rw [show o = A.length + (o - A.length) by omega, List.drop_append]
  congr 1
  omega

theorem inv_new (ce : ElevCodec) (ci : ImgCodec) (m : TileMetadata) :
    Inv ce ci m (DatasetBuilder.new m) := by
  refine ⟨rfl, ?_, ?_, ?_⟩
  · simp only [DatasetBuilder.new, List.length_replicate]
  · rw [new_file_length]
  · intro i hi
    exact absurd (getD_replicate_zero 64800 i) hi

theorem inv_add (ce : ElevCodec) (ci : ImgCodec) (m : TileMetadata)
    (s : BuilderState) (hs : Inv ce ci m s) (lat lon : ℤ)
    (E W Hs : List ℕ) :
    Inv ce ci m (DatasetBuilder.add_tile ce ci s lat lon E W Hs) := by
  obtain ⟨hm, htm, hfl, hent⟩ := hs
  refine ⟨hm, ?_, ?_, ?_⟩
  · simp only [DatasetBuilder.add_tile, List.length_set, htm]
  · simp only [DatasetBuilder.add_tile, List.length_append]
    omega
  · intro i hi
    simp only [DatasetBuilder.add_tile] at hi ⊢
    rw [getD_set_ite] at hi ⊢
    by_cases hcase : map_lat_lon_to_index lat lon = i ∧
        map_lat_lon_to_index lat lon < s.tile_map.length
    · rw [if_pos hcase] at hi ⊢
      refine ⟨by omega, by rw [List.length_append]; omega, ?_⟩
      refine ⟨E.map (quantise m.height_resolution), W, Hs, [], ?_⟩
      rw [drop_append_ge _ _ _ (le_refl _), Nat.sub_self, List.drop_zero,
        List.append_nil, recordBytes, hm]
    · rw [if_neg hcase] at hi ⊢
      obtain ⟨h1, h2, e, w, h, rest, hrec⟩ := hent i hi
      refine ⟨h1, by rw [List.length_append]; omega, e, w, h,
        rest ++ recordBytes ce ci s.metadata E W Hs, ?_⟩
      rw [List.drop_append_of_le_length h2, hrec]
      simp [List.append_assoc]

theorem inv_flush (ce : ElevCodec) (ci : ImgCodec) (m : TileMetadata)
    (s : BuilderState) (hs : Inv ce ci m s) :
    Inv ce ci m (DatasetBuilder.flush s) ∧
    (DatasetBuilder.flush s).file.length = s.file.length ∧
    (DatasetBuilder.flush s).tile_map = s.tile_map ∧
    (∀ o, 518432 ≤ o → (DatasetBuilder.flush s).file.drop o = s.file.drop o) ∧
    (DatasetBuilder.flush s).file =
      s.file.take 32 ++
        (tileMapBytes s.tile_map ++ s.file.drop 518432) := by
  obtain ⟨hm, htm, hfl, hent⟩ := hs
  have hps : PREFIX_SIZE = 518432 := rfl
  have htake32 : (s.file.take 32).length = 32 := by
    rw [List.length_take]; omega
  have hlen : (DatasetBuilder.flush s).file.length = s.file.length := by
    simp only [DatasetBuilder.flush, hps, List.length_append, htake32,
      tileMapBytes_length, htm, List.length_drop]
    omega
  have hpre : (s.file.take 32 ++ tileMapBytes s.tile_map).length = 518432 := by
    rw [List.length_append, htake32, tileMapBytes_length, htm]
  have hdrop : ∀ o, 518432 ≤ o →
      (DatasetBuilder.flush s).file.drop o = s.file.drop o := by
    intro o ho
    show (s.file.take 32 ++ tileMapBytes s.tile_map ++
      s.file.drop 518432).drop o = s.file.drop o
    rw [drop_append_ge (s.file.take 32 ++ tileMapBytes s.tile_map)
      (s.file.drop 518432) o (by rw [hpre]; exact ho), hpre, List.drop_drop,
      Nat.add_sub_cancel' ho]
  refine ⟨⟨hm, htm, by rw [hlen]; omega, ?_⟩, hlen, rfl, hdrop, by
    simp only [DatasetBuilder.flush, hps, List.append_assoc]⟩
  intro i hi
  have htm_eq : (DatasetBuilder.flush s).tile_map = s.tile_map := rfl
  rw [htm_eq] at hi ⊢
  obtain ⟨h1, h2, e, w, h, rest, hrec⟩ := hent i hi
  exact ⟨h1, by rw [hlen]; exact h2, e, w, h, rest, by
    rw [hdrop _ h1]; exact hrec⟩

theorem inv_run (ce : ElevCodec) (ci : ImgCodec) (m : TileMetadata) :
    ∀ (ops : List BuilderOp) (s : BuilderState), Inv ce ci m s →
      (∀ op ∈ ops, op.success) → Inv ce ci m (BuilderOp.run ce ci s ops) := by
  intro ops
  induction ops with
  | nil => intro s hs _; exact hs
  | cons op rest ih =>
    intro s hs hsucc
    cases op with
    | add lat lon E W Hs =>
      exact ih _ (inv_add ce ci m s hs lat lon E W Hs)
        (fun o ho => hsucc o (List.mem_cons_of_mem _ ho))
    | addFail lat lon E W Hs k =>
      exact absurd
        (hsucc (BuilderOp.addFail lat lon E W Hs k) (List.mem_cons_self _ _))
        (by simp [BuilderOp.success])
    | flush =>
      exact ih _ (inv_flush ce ci m s hs).1
        (fun o ho => hsucc o (List.mem_cons_of_mem _ ho))

theorem parseTileMap_append (file X : List ℕ) (h : 518432 ≤ file.length) :
    parseTileMap (file ++ X) = parseTileMap file := by
  apply List.ext_getElem
  · simp only [parseTileMap, List.length_map, List.length_range]
  · intro n h1 h2
    have hn : n < 64800 := by
      simpa only [parseTileMap, List.length_map, List.length_range] using h2
    simp only [parseTileMap, List.getElem_map, List.getElem_range]
    unfold readU64le
    rw [List.getD_append _ _ _ _ (by omega), List.getD_append _ _ _ _
        (by omega),
      List.getD_append _ _ _ _ (by omega), List.getD_append _ _ _ _ (by omega),
      List.getD_append _ _ _ _ (by omega), List.getD_append _ _ _ _ (by omega),
      List.getD_append _ _ _ _ (by omega), List.getD_append _ _ _ _ (by omega)]

theorem RecordOk_of_valid (ce : ElevCodec) (ci : ImgCodec)
    (hce : ce.RoundTrip) (hci : ci.RoundTrip) (res : ℕ) (file : List ℕ)
    (o : ℕ) (ho : o ≤ file.length)
    (hval : ValidRecordAt ce ci res file o) : RecordOk ce ci res file o := by
  obtain ⟨e, w, h, rest, hdrop⟩ := hval
  refine ⟨(e, w, h),
    (ce.enc res e).length + (ci.enc res w).length + (ci.enc res h).length,
    ?_, ?_⟩
  · simp only [decodeRecord, hdrop,
      hce res e (ci.enc res w ++ (ci.enc res h ++ rest)), List.drop_left,
      hci res w (ci.enc res h ++ rest), hci res h rest]
  · have hl : (file.drop o).length = file.length - o := List.length_drop o file
    rw [hdrop, List.length_append, List.length_append, List.length_append]
      at hl
    omega

/-- C2 (amended): starting from `DatasetBuilder::new` and any history of
**fully successful** `add_tile`s and `flush`es (with the file below the
`u64` offset limit): (a) a further `add_tile` — even one whose append fails
partway — only appends bytes and leaves the on-disk offset table
byte-for-byte unchanged, so the appended bytes stay unreferenced until a
`flush`; (b) after a subsequent `flush` the on-disk table equals the
in-memory table, and every non-zero offset in it references a record fully
contained in the file that decodes without error.  The success proviso is
necessary: a failed `add_tile` records its offset in the in-memory table
before writing, and a later `flush` publishes that dangling offset (see the
counterexample). -/
theorem builder_crash_safety :
    ∀ (ce : ElevCodec) (ci : ImgCodec), ce.RoundTrip → ci.RoundTrip →
    ∀ (m : TileMetadata) (ops : List BuilderOp),
      (∀ op ∈ ops, op.success) →
      (BuilderOp.run ce ci (DatasetBuilder.new m) ops).file.length < 2 ^ 64 →
      (∀ lat lon E W Hs,
        parseTileMap (DatasetBuilder.add_tile ce ci
          (BuilderOp.run ce ci (DatasetBuilder.new m) ops) lat lon E W
          Hs).file =
        parseTileMap (BuilderOp.run ce ci (DatasetBuilder.new m) ops).file) ∧
      (∀ lat lon E W Hs k,
        parseTileMap (DatasetBuilder.add_tile_partial ce ci
          (BuilderOp.run ce ci (DatasetBuilder.new m) ops) lat lon E W Hs
          k).file =
        parseTileMap (BuilderOp.run ce ci (DatasetBuilder.new m) ops).file) ∧
      parseTileMap (DatasetBuilder.flush
          (BuilderOp.run ce ci (DatasetBuilder.new m) ops)).file =
        (BuilderOp.run ce ci (DatasetBuilder.new m) ops).tile_map ∧
      (∀ i,
        (parseTileMap (DatasetBuilder.flush
          (BuilderOp.run ce ci (DatasetBuilder.new m) ops)).file).getD i 0
          ≠ 0 →
        RecordOk ce ci m.resolution
          (DatasetBuilder.flush (BuilderOp.run ce ci (DatasetBuilder.new m)
            ops)).file
          ((parseTileMap (DatasetBuilder.flush
            (BuilderOp.run ce ci (DatasetBuilder.new m) ops)).file).getD
            i 0)) := by
  intro ce ci hce hci m ops hsucc
  have hinv := inv_run ce ci m ops (DatasetBuilder.new m) (inv_new ce ci m)
    hsucc
  revert hinv
  generalize BuilderOp.run ce ci (DatasetBuilder.new m) ops = s
  intro hinv hlen
  obtain ⟨hm, htm, hfl, hent⟩ := hinv
  obtain ⟨hinvF, hlenF, htmF, hdropF, hshapeF⟩ :=
    inv_flush ce ci m s ⟨hm, htm, hfl, hent⟩
  have hbound : ∀ x ∈ s.tile_map, x < 2 ^ 64 := by
    intro x hx
    obtain ⟨i, hi, hgx⟩ := List.mem_iff_getElem.mp hx
    by_cases hz : x = 0
    · subst hz; norm_num
    · have hd : s.tile_map.getD i 0 = x := by
        rw [List.getD_eq_getElem _ _ hi, hgx]
      have := (hent i (by rw [hd]; exact hz)).2.1
      rw [hd] at this
      omega
  have hdisk : parseTileMap (DatasetBuilder.flush s).file = s.tile_map := by
    rw [hshapeF]
    exact parseTileMap_serialize _ _ _ (by rw [List.length_take]; omega) htm
      hbound
  refine ⟨?_, ?_, hdisk, ?_⟩
  · intro lat lon E W Hs
    exact parseTileMap_append s.file _ hfl
  · intro lat lon E W Hs k
    exact parseTileMap_append s.file _ hfl
  · intro i hi
    rw [hdisk] at hi ⊢
    have hentF := hinvF.2.2.2 i
    rw [show (DatasetBuilder.flush s).tile_map = s.tile_map from rfl] at hentF
    obtain ⟨ho1, ho2, hval⟩ := hentF hi
    exact RecordOk_of_valid ce ci hce hci m.resolution _ _ ho2 hval

/-- Witness for C2: the empty (trivially all-successful) history on a fresh
dataset; the flushed on-disk table equals the in-memory table. -/
theorem builder_crash_safety_witness :
    parseTileMap (DatasetBuilder.flush (BuilderOp.run lpElevCodec lpImgCodec
      (DatasetBuilder.new ⟨8, 1, 1⟩) [])).file =
    (BuilderOp.run lpElevCodec lpImgCodec (DatasetBuilder.new ⟨8, 1, 1⟩)
      []).tile_map :=
  (builder_crash_safety lpElevCodec lpImgCodec lpElevCodec_roundTrip
    lpImgCodec_roundTrip ⟨8, 1, 1⟩ [] (fun op ho => absurd ho
      (List.not_mem_nil op))
    (by show (DatasetBuilder.new (⟨8, 1, 1⟩ : TileMetadata)).file.length <
          2 ^ 64
        rw [new_file_length]; norm_num)).2.2.1

/-- The failing history of the C2 counterexample: one `add_tile` whose
append failed after 0 bytes, followed by the periodic `flush`. -/
def c2ops : List BuilderOp := [.addFail 0 0 [5] [0] [0] 0, .flush]

/-- The builder state after the failing history. -/
def c2state : BuilderState :=
  BuilderOp.run lpElevCodec lpImgCodec (DatasetBuilder.new ⟨8, 1, 1⟩) c2ops

/-- C2 counterexample: `add_tile` records the offset in the in-memory table
*before* the `write_all` calls (builder.rs line 114), so after an append
that failed having written nothing, the next `flush` publishes offset
518432 for cell `(0, 0)` — but the file ends at byte 518432: the referenced
record is not contained in the file and its decode fails, violating the
claim that after any subsequent flush every non-zero offset references a
record fully contained in the file that decodes without error. -/
theorem builder_crash_safety_counterexample :
    (parseTileMap c2state.file).getD (map_lat_lon_to_index 0 0) 0 = 518432 ∧
    c2state.file.length = 518432 ∧
    ¬RecordOk lpElevCodec lpImgCodec 1 c2state.file 518432 := by
  have hlen0 : (headerBytes (⟨8, 1, 1⟩ : TileMetadata) ++
      tileMapBytes (List.replicate 64800 0)).length = 518432 := by
    rw [List.length_append, headerBytes_length, tileMapBytes_length,
      List.length_replicate]
  have hidx : map_lat_lon_to_index 0 0 = 32580 := rfl
  have hstate : c2state = DatasetBuilder.flush
      ⟨⟨8, 1, 1⟩, (List.replicate 64800 0).set 32580 518432,
        headerBytes ⟨8, 1, 1⟩ ++ tileMapBytes (List.replicate 64800 0)⟩ := by
    simp only [c2state, c2ops, BuilderOp.run, BuilderOp.step,
      DatasetBuilder.add_tile_partial, DatasetBuilder.new, hlen0, hidx,
      List.take_zero, List.append_nil]
  have hfile : c2state.file = headerBytes (⟨8, 1, 1⟩ : TileMetadata) ++
      (tileMapBytes ((List.replicate 64800 0).set 32580 518432) ++ []) := by
    rw [hstate]
    simp only [DatasetBuilder.flush]
    rw [show PREFIX_SIZE = 518432 from rfl,
      take_of_length_eq _ _ _ (headerBytes_length _),
      List.drop_eq_nil_of_le (by rw [hlen0]), List.append_assoc]
  have htm1 : ((List.replicate (64800 : ℕ) 0).set 32580 518432).length =
      64800 := by
    rw [List.length_set, List.length_replicate]
  have hparse : parseTileMap c2state.file =
      (List.replicate 64800 0).set 32580 518432 := by
    rw [hfile]
    refine parseTileMap_serialize _ _ _ (headerBytes_length _) htm1 ?_
    intro x hx
    rcases List.mem_or_eq_of_mem_set hx with hx2 | rfl
    · rw [List.eq_of_mem_replicate hx2]; norm_num
    · norm_num
  have hflen : c2state.file.length = 518432 := by
    rw [hfile, List.length_append, List.length_append, headerBytes_length,
      tileMapBytes_length, htm1]
    rfl
  refine ⟨?_, hflen, ?_⟩
  · rw [hidx, hparse, getD_set_ite, if_pos ⟨rfl, by
      rw [List.length_replicate]; norm_num⟩]
  · rintro ⟨r, len, hdec, hcontained⟩
    rw [List.drop_eq_nil_of_le (by rw [hflen]),
      show decodeRecord lpElevCodec lpImgCodec 1 [] = none from rfl] at hdec
    cases hdec

end TerrainRadar
